import Mathlib

/-!
Verification of the career-projector frontend analytics and storage logic.

The TypeScript source is shallowly embedded:
* JS numbers are modelled as `ℚ` (all quantities involved are small exact
  decimals and integers, and only `+ - * /`, comparisons and `Math.round`
  occur); the single place where JS produces `NaN` (division `0/0` in the
  roadmap progress bar) is modelled by the dedicated type `JsNum`.
* JS strings are ASCII in all relevant data; `toLowerCase` is modelled by
  `Char.toLower` (identical on the basic latin range), `String.prototype.includes`
  by the substring check `occursIn`, and `str.length` by `String.length`
  (equal on ASCII).
* JS `Array.prototype.sort` is a stable sort by the comparator's order; it is
  modelled by `List.insertionSort`, which is stable, so the results agree for
  the total preorders used here.
* Plain-object maps `{ [key]: v }` with non-numeric string keys enumerate in
  insertion order; they are modelled by association lists that append fresh
  keys at the end.
* Date strings are modelled by the year `new Date(s).getFullYear()` yields;
  `new Date()` (the ambient clock) is made explicit as a `nowYear` argument.
-/

namespace CareerProjector

/-! ### Generic string helpers (JS semantics) -/

/-- Does `big` start with `small`? (helper for `occursIn`). -/
def leadsWith : List Char → List Char → Bool
  | [], _ => true
  | _ :: _, [] => false
  | a :: as, b :: bs => a == b && leadsWith as bs

/-- `occursIn small big` is JS `big.includes(small)`: `small` occurs as a
contiguous substring of `big`. -/
def occursIn (small : List Char) : List Char → Bool
  | [] => leadsWith small []
  | b :: bs => leadsWith small (b :: bs) || occursIn small bs

/-- JS `a.includes(b)` on strings. -/
def jsIncludesS (a b : String) : Bool :=
  occursIn b.toList a.toList

/-- JS `toLowerCase` on a character list (ASCII range, like `Char.toLower`). -/
def toLowerL (l : List Char) : List Char :=
  l.map Char.toLower

/-- JS `toLowerCase` on a string. -/
def toLowerS (s : String) : String :=
  (toLowerL s.toList).asString

/-- Source `normalizeSkill` (part_001 lines 668-673):
`skill.toLowerCase().replace(/[^a-z0-9]/g, '').replace(/\s+/g, '')`
(the second replace is a no-op after the first). -/
def normalizeL (l : List Char) : List Char :=
  (toLowerL l).filter fun c => c.isLower || c.isDigit

/-- `normalizeSkill` at the string level. -/
def normalizeSkill (s : String) : String :=
  (normalizeL s.toList).asString

/-! ### The skill matcher (part_001 lines 676-762) -/

/-- The curated alias table `variations` (part_001 lines 694-727), verbatim,
including the duplicated entries in the source. -/
def variations : List (String × List String) :=
  [("javascript", ["js", "ecmascript", "es6", "es2015", "es2016", "es2017", "es2018", "es2019", "es2020"]),
   ("typescript", ["ts"]),
   ("python", ["py", "python3", "python2"]),
   ("react", ["reactjs", "react.js", "reactjs"]),
   ("vue", ["vuejs", "vue.js", "vuejs"]),
   ("angular", ["angularjs", "angular.js", "ng"]),
   ("node", ["nodejs", "node.js", "nodejsserver"]),
   ("express", ["expressjs", "express.js"]),
   ("next", ["nextjs", "next.js"]),
   ("nuxt", ["nuxtjs", "nuxt.js"]),
   ("docker", ["containerization", "containers"]),
   ("kubernetes", ["k8s", "k8"]),
   ("postgresql", ["postgres", "psql", "pg"]),
   ("mongodb", ["mongo", "mongodbdatabase"]),
   ("mysql", ["mysqldb"]),
   ("redis", ["rediscache"]),
   ("graphql", ["gql"]),
   ("rest", ["restapi", "restful", "restfulapi"]),
   ("api", ["apis", "webservices"]),
   ("git", ["github", "gitlab", "gitversion"]),
   ("aws", ["amazon", "amazonwebservices"]),
   ("azure", ["microsoftazure"]),
   ("gcp", ["googlecloud", "googlecloudplatform"]),
   ("ci", ["cicd", "continuousintegration"]),
   ("cd", ["cicd", "continuousdeployment"]),
   ("jest", ["jestjs", "jesttest"]),
   ("mocha", ["mochajs", "mochatest"]),
   ("sass", ["scss"]),
   ("css", ["css3", "cascadingstylesheets"]),
   ("html", ["html5", "hypertext"]),
   ("sql", ["structured", "mysql", "postgresql", "sqlserver"]),
   ("nosql", ["mongodb", "couchdb", "dynamodb"])]

/-- First branch of the `variations` loop body (part_001 lines 733-739):
the user has the base skill and the recommended skill is a variation. -/
def entryHitFirst (nu nr : List Char) (key : String) (vars : List String) : Bool :=
  (occursIn (normalizeL key.toList) nu || nu == normalizeL key.toList) &&
  vars.any fun v => occursIn (normalizeL v.toList) nr || occursIn nr (normalizeL v.toList)

/-- Second branch of the `variations` loop body (part_001 lines 741-750):
the user has a variation and the recommended skill is the base or a variation. -/
def entryHitSecond (nu nr : List Char) (key : String) (vars : List String) : Bool :=
  (vars.any fun v => occursIn (normalizeL v.toList) nu || normalizeL v.toList == nu) &&
  ((occursIn (normalizeL key.toList) nr || occursIn nr (normalizeL key.toList)) ||
   vars.any fun v => occursIn (normalizeL v.toList) nr || normalizeL v.toList == nr)

/-- The whole `variations` loop (part_001 lines 730-751): any entry whose
first or second branch returns `true`. -/
def variationsHit (nu nr : List Char) : Bool :=
  variations.any fun kv => entryHitFirst nu nr kv.1 kv.2 || entryHitSecond nu nr kv.1 kv.2

/-- The per-pair body of `hasSkill`'s `userSkills.some` callback
(part_001 lines 680-760): checks 1-5 as an or-chain of the early returns. -/
def matchesSkill (userSkill recommendedSkill : String) : Bool :=
  let skillLower := toLowerL recommendedSkill.toList
  let nr := normalizeL recommendedSkill.toList
  let nu := normalizeL userSkill.toList
  let u := userSkill.toList
  (nu == nr) ||
  (occursIn nr nu || occursIn nu nr) ||
  (u == skillLower) ||
  (occursIn skillLower u || occursIn u skillLower) ||
  variationsHit nu nr ||
  (decide (4 ≤ nr.length) && decide (4 ≤ nu.length) && (occursIn nr nu || occursIn nu nr))

/-- `matchesSkill` with the alias-table step (check 4) removed: checks 1, 2, 3
and 5 of part_001 lines 680-760. -/
def matchesSkillNoAlias (userSkill recommendedSkill : String) : Bool :=
  let skillLower := toLowerL recommendedSkill.toList
  let nr := normalizeL recommendedSkill.toList
  let nu := normalizeL userSkill.toList
  let u := userSkill.toList
  (nu == nr) ||
  (occursIn nr nu || occursIn nu nr) ||
  (u == skillLower) ||
  (occursIn skillLower u || occursIn u skillLower) ||
  (decide (4 ≤ nr.length) && decide (4 ≤ nu.length) && (occursIn nr nu || occursIn nu nr))

/-- Source `hasSkill` (part_001 lines 676-762): some user skill matches the
recommended skill. -/
def hasSkill (userSkills : List String) (recommendedSkill : String) : Bool :=
  userSkills.any fun u => matchesSkill u recommendedSkill

/-- Co-membership in the curated alias table: the canonical forms of both
strings are members (base key or variation) of one table entry. -/
def aliasCoMember (a b : String) : Prop :=
  ∃ kv ∈ variations,
    normalizeSkill a ∈ (kv.1 :: kv.2).map normalizeSkill ∧
    normalizeSkill b ∈ (kv.1 :: kv.2).map normalizeSkill

instance (a b : String) : Decidable (aliasCoMember a b) := by
  unfold aliasCoMember; infer_instance

/-! ### Data model (part_007 lines 356-425)

Fields that none of the modelled computations read (ids, descriptions,
reasoning text, urls, the opaque `ai_insight`) are omitted; optional JS fields
are `Option`, and `||`-style defaulting (where `0`, `''`, `undefined` are all
falsy) is modelled by the `jsOr*` helpers below. -/

structure Skill where
  skill_name : String
  skill_category : Option String
  confidence_score : ℚ
deriving DecidableEq

structure WorkExperience where
  job_title : String
  company_name : Option String
  /-- the year `new Date(start_date).getFullYear()` yields, when present -/
  start_date : Option ℚ
  end_date : Option ℚ
  duration_months : Option ℚ
  technologies_used : Option String
  is_current : Bool
  seniority_level : Option String
deriving DecidableEq

structure CVDetail where
  skills : List Skill
  work_experiences : List WorkExperience
deriving DecidableEq

structure PathwayRecommendation where
  pathway : String
  match_score : ℚ
  recommended_skills : List String
  experience_relevance : Option ℚ
  career_progression_score : Option ℚ
  recency_boost : Option ℚ
deriving DecidableEq

structure RecommendationResult where
  cv_id : ℤ
  recommendations : List PathwayRecommendation
  total_skills : ℕ
deriving DecidableEq

/-- JS `x || d` for an optional number (`undefined` and `0` are falsy). -/
def jsOrNum (o : Option ℚ) (d : ℚ) : ℚ :=
  match o with
  | none => d
  | some q => if q = 0 then d else q

/-- JS `x || d` for an optional string (`undefined` and `''` are falsy). -/
def jsOrStr (o : Option String) (d : String) : String :=
  match o with
  | none => d
  | some s => if s = "" then d else s

/-- JS truthiness of an optional number. -/
def truthyNum (o : Option ℚ) : Bool :=
  match o with
  | none => false
  | some q => decide (q ≠ 0)

/-- JS `Math.round` (round half toward positive infinity). -/
def jsRound (q : ℚ) : ℤ :=
  ⌊q + 1 / 2⌋

/-- JS `s.length > n ? s.substring(0, n) + '...' : s`. -/
def truncateTo (n : ℕ) (s : String) : String :=
  if n < s.length then s.take n ++ "..." else s

/-! ### Chart datasets (`getChartData`, part_001 lines 521-834) -/

structure MatchDatum where
  name : String
  value : ℤ
  percentage : ℚ
deriving DecidableEq

structure SkillGapDatum where
  skill : String
  frequency : ℕ
  importance : ℤ
deriving DecidableEq

structure ScoreDistDatum where
  name : String
  value : ℕ
  color : String
deriving DecidableEq

structure RadarDatum where
  subject : String
  fullName : String
  A : ℤ
  matchScore : ℤ
deriving DecidableEq

structure StackedDatum where
  pathway : String
  fullName : String
  hasSkills : ℤ
  needsSkills : ℤ
  matchScore : ℤ
deriving DecidableEq

structure PriorityDatum where
  skill : String
  impact : ℚ
  difficulty : ℚ
  size : ℕ
  color : String
deriving DecidableEq

structure TrendDatum where
  rank : ℕ
  pathway : String
  fullName : String
  matchScore : ℤ
  careerProgression : ℤ
  recency : ℤ
  experience : ℤ
deriving DecidableEq

structure TimelineEntry where
  job_title : String
  company : String
  startYear : ℚ
  endYear : ℚ
  duration : ℚ
  isCurrent : Bool
  seniority : String
  technologies : String
deriving DecidableEq

structure HeatmapDatum where
  category : String
  hasSkill : ℕ
  needsSkill : ℕ
  total : ℕ
  proficiency : ℤ
deriving DecidableEq

structure ChartData where
  matchData : List MatchDatum
  topSkillGaps : List SkillGapDatum
  scoreDistribution : List ScoreDistDatum
  radarData : List RadarDatum
  skillsGapStackedData : List StackedDatum
  learningPriorityData : List PriorityDatum
  progressionTrendData : List TrendDatum
  experienceTimelineData : List TimelineEntry
  skillHeatmapData : List HeatmapDatum
deriving DecidableEq

/-- Career match distribution (part_001 lines 525-529). -/
def matchData (recs : List PathwayRecommendation) : List MatchDatum :=
  recs.map fun rec =>
    { name := rec.pathway
      value := jsRound (rec.match_score * 100)
      percentage := rec.match_score }

/-- Increment a string-keyed counter map kept in insertion order
(`skillGapData[skill] = (skillGapData[skill] || 0) + 1`, part_001 line 535). -/
def bumpCount (m : List (String × ℕ)) (k : String) : List (String × ℕ) :=
  match m with
  | [] => [(k, 1)]
  | (k', v) :: rest => if k' = k then (k', v + 1) :: rest else (k', v) :: bumpCount rest k

/-- The `skillGapData` map (part_001 lines 532-537): each recommendation
contributes its first five recommended skills. -/
def skillGapData (recs : List PathwayRecommendation) : List (String × ℕ) :=
  recs.foldl (fun m rec => (rec.recommended_skills.take 5).foldl bumpCount m) []

/-- Top skill gaps (part_001 lines 539-546): sort by count descending
(stable), take 10, attach frequency and importance. -/
def topSkillGaps (recs : List PathwayRecommendation) : List SkillGapDatum :=
  ((List.insertionSort (fun a b : String × ℕ => b.2 ≤ a.2) (skillGapData recs)).take 10).map
    fun p =>
      { skill := p.1
        frequency := p.2
        importance := jsRound ((p.2 : ℚ) / (recs.length : ℚ) * 100) }

/-- Match score ranges (part_001 lines 549-553). -/
def scoreRanges (recs : List PathwayRecommendation) : ℕ × ℕ × ℕ :=
  ((recs.filter fun r => decide ((0.7 : ℚ) ≤ r.match_score)).length,
   (recs.filter fun r => decide ((0.5 : ℚ) ≤ r.match_score ∧ r.match_score < (0.7 : ℚ))).length,
   (recs.filter fun r => decide (r.match_score < (0.5 : ℚ))).length)

/-- Score distribution (part_001 lines 555-559): the three buckets, dropping
empty ones. -/
def scoreDistribution (recs : List PathwayRecommendation) : List ScoreDistDatum :=
  ([{ name := "Excellent Match (70%+)", value := (scoreRanges recs).1, color := "#10b981" },
    { name := "Good Match (50-69%)", value := (scoreRanges recs).2.1, color := "#f59e0b" },
    { name := "Fair Match (<50%)", value := (scoreRanges recs).2.2, color := "#ef4444" }]).filter
    fun item => decide (0 < item.value)

/-- Radar chart data (part_001 lines 562-568): top five paths, only rendered
with at least three. -/
def radarData (recs : List PathwayRecommendation) : List RadarDatum :=
  let topRecs := recs.take 5
  if 3 ≤ topRecs.length then
    topRecs.map fun rec =>
      { subject := truncateTo 20 rec.pathway
        fullName := rec.pathway
        A := jsRound (rec.match_score * 100)
        matchScore := jsRound (rec.match_score * 100) }
  else []

/-- Skills-gap stacked bars (part_001 lines 571-582). -/
def skillsGapStackedData (recs : List PathwayRecommendation) : List StackedDatum :=
  (recs.take 8).map fun rec =>
    let matchPercent := jsRound (rec.match_score * 100)
    { pathway := truncateTo 18 rec.pathway
      fullName := rec.pathway
      hasSkills := matchPercent
      needsSkills := 100 - matchPercent
      matchScore := matchPercent }

/-- Update of the `allMissingSkills` map (part_001 lines 585-594): count and
accumulated match score per skill, keys in first-occurrence order. -/
def bumpMissing (m : List (String × ℕ × ℚ)) (k : String) (score : ℚ) : List (String × ℕ × ℚ) :=
  match m with
  | [] => [(k, 1, score)]
  | (k', c, a) :: rest =>
    if k' = k then (k', c + 1, a + score) :: rest else (k', c, a) :: bumpMissing rest k score

/-- The `allMissingSkills` map (part_001 lines 585-594). -/
def allMissingSkills (recs : List PathwayRecommendation) : List (String × ℕ × ℚ) :=
  recs.foldl (fun m rec => rec.recommended_skills.foldl (fun m' sk => bumpMissing m' sk rec.match_score) m) []

/-- Priority color assignment (part_001 lines 603-613): the `if`-chain over
`impact > 60` and `difficulty < 60`; the initial purple default is dead code
because the four branches are exhaustive. -/
def tierColor (impact difficulty : ℚ) : String :=
  if 60 < impact ∧ difficulty < 60 then "#10b981"
  else if 60 < impact ∧ 60 ≤ difficulty then "#f59e0b"
  else if impact ≤ 60 ∧ difficulty < 60 then "#3b82f6"
  else "#ef4444"

/-- One learning-priority entry (part_001 lines 598-622): impact is the
occurrence count over the number of recommendations as a percentage,
difficulty is 70 for names longer than 8 characters and 40 otherwise. -/
def mkPriorityEntry (total : ℕ) (e : String × ℕ × ℚ) : PriorityDatum :=
  let impact : ℚ := (e.2.1 : ℚ) / (total : ℚ) * 100
  let difficulty : ℚ := if 8 < e.1.length then 70 else 40
  { skill := e.1
    impact := impact
    difficulty := difficulty
    size := e.2.1 * 2 + 5
    color := tierColor impact difficulty }

/-- Learning priority matrix data (part_001 lines 596-622). -/
def learningPriorityData (recs : List PathwayRecommendation) : List PriorityDatum :=
  ((allMissingSkills recs).take 20).map (mkPriorityEntry recs.length)

/-- Career progression trend (part_001 lines 625-633). -/
def progressionTrendData (recs : List PathwayRecommendation) : List TrendDatum :=
  (recs.take 5).enum.map fun p =>
    { rank := p.1 + 1
      pathway := truncateTo 15 p.2.pathway
      fullName := p.2.pathway
      matchScore := jsRound (p.2.match_score * 100)
      careerProgression := jsRound (jsOrNum p.2.career_progression_score (1 / 2) * 100)
      recency := jsRound (jsOrNum p.2.recency_boost (1 / 2) * 100)
      experience := jsRound (jsOrNum p.2.experience_relevance 0 * 100) }

/-- One timeline entry (part_001 lines 639-654); `nowYear` is the year
`new Date().getFullYear()` returns at evaluation time. -/
def mkTimelineEntry (nowYear : ℚ) (exp : WorkExperience) : TimelineEntry :=
  let startYear := match exp.start_date with | some y => y | none => nowYear
  let durationYears := if truthyNum exp.duration_months then (exp.duration_months.getD 0) / 12 else 1
  let endYear :=
    match exp.end_date with
    | some y => y
    | none => if exp.is_current then nowYear else startYear + durationYears
  { job_title := exp.job_title
    company := jsOrStr exp.company_name "Unknown Company"
    startYear := startYear
    endYear := endYear
    duration := if endYear - startYear = 0 then 1 / 2 else endYear - startYear
    isCurrent := exp.is_current
    seniority := jsOrStr exp.seniority_level "Mid"
    technologies := jsOrStr exp.technologies_used "" }

/-- The work experiences of an optional CV detail (`cvDetail?.work_experiences`). -/
def cvExperiences (cv : Option CVDetail) : List WorkExperience :=
  match cv with
  | none => []
  | some c => c.work_experiences

/-- Experience timeline (part_001 lines 636-656): keep experiences with a
start date or a nonzero duration, build entries, sort by start year (stable). -/
def experienceTimelineData (cv : Option CVDetail) (nowYear : ℚ) : List TimelineEntry :=
  List.insertionSort (fun a b : TimelineEntry => a.startYear ≤ b.startYear)
    (((cvExperiences cv).filter fun exp =>
        exp.start_date.isSome || truthyNum exp.duration_months).map (mkTimelineEntry nowYear))

/-- The lower-cased user CV skills (part_001 line 662). -/
def userSkills (cv : Option CVDetail) : List String :=
  (match cv with | none => ([] : List Skill) | some c => c.skills).map fun s : Skill => toLowerS s.skill_name

/-- Category of a recommended skill by keyword containment
(part_001 lines 771-790). -/
def categoryOf (skill : String) : String :=
  let sl := toLowerS skill
  if jsIncludesS sl "react" || jsIncludesS sl "vue" || jsIncludesS sl "angular" ||
     jsIncludesS sl "html" || jsIncludesS sl "css" || jsIncludesS sl "frontend" then "Frontend"
  else if jsIncludesS sl "node" || jsIncludesS sl "python" || jsIncludesS sl "java" ||
     jsIncludesS sl "backend" || jsIncludesS sl "api" || jsIncludesS sl "server" then "Backend"
  else if jsIncludesS sl "sql" || jsIncludesS sl "database" || jsIncludesS sl "mongodb" ||
     jsIncludesS sl "postgres" || jsIncludesS sl "redis" then "Database"
  else if jsIncludesS sl "docker" || jsIncludesS sl "kubernetes" || jsIncludesS sl "ci/cd" ||
     jsIncludesS sl "devops" || jsIncludesS sl "aws" || jsIncludesS sl "cloud" then "DevOps"
  else if jsIncludesS sl "test" || jsIncludesS sl "qa" || jsIncludesS sl "junit" then "Testing"
  else if jsIncludesS sl "ml" || jsIncludesS sl "ai" || jsIncludesS sl "data science" ||
     jsIncludesS sl "tensorflow" || jsIncludesS sl "pytorch" then "AI/ML"
  else "Other"

/-- Update of the `skillCategoryData` map (part_001 lines 792-804): per
category, counts of matched (`hasSkill`) and unmatched (`needsSkill`) skills. -/
def bumpCategory (m : List (String × ℕ × ℕ)) (cat : String) (matched : Bool) : List (String × ℕ × ℕ) :=
  match m with
  | [] => [(cat, if matched then (1, 0) else (0, 1))]
  | (k, h, n) :: rest =>
    if k = cat then (k, if matched then (h + 1, n) else (h, n + 1)) :: rest
    else (k, h, n) :: bumpCategory rest cat matched

/-- The `skillCategoryData` map (part_001 lines 659-805), keyed in
first-occurrence order of categories. -/
def skillCategoryData (recs : List PathwayRecommendation) (cv : Option CVDetail) : List (String × ℕ × ℕ) :=
  recs.foldl
    (fun m rec =>
      rec.recommended_skills.foldl
        (fun m' sk => bumpCategory m' (categoryOf sk) (hasSkill (userSkills cv) sk)) m)
    []

/-- Skill category heatmap (part_001 lines 811-821): proficiency per category,
sorted by total descending (stable). -/
def skillHeatmapData (recs : List PathwayRecommendation) (cv : Option CVDetail) : List HeatmapDatum :=
  List.insertionSort (fun a b : HeatmapDatum => b.total ≤ a.total)
    ((skillCategoryData recs cv).map fun e =>
      { category := e.1
        hasSkill := e.2.1
        needsSkill := e.2.2
        total := e.2.1 + e.2.2
        proficiency :=
          if 0 < e.2.1 + e.2.2 then jsRound ((e.2.1 : ℚ) / ((e.2.1 : ℚ) + (e.2.2 : ℚ)) * 100)
          else 0 })

/-- `getChartData` (part_001 lines 521-834): `null` when there are no
recommendations, otherwise the nine chart datasets. `nowYear` makes the
ambient clock read by the timeline explicit. -/
def getChartData (recommendations : Option RecommendationResult) (cvDetail : Option CVDetail)
    (nowYear : ℚ) : Option ChartData :=
  match recommendations with
  | none => none
  | some rr =>
    if rr.recommendations.isEmpty then none
    else
      some
        { matchData := matchData rr.recommendations
          topSkillGaps := topSkillGaps rr.recommendations
          scoreDistribution := scoreDistribution rr.recommendations
          radarData := radarData rr.recommendations
          skillsGapStackedData := skillsGapStackedData rr.recommendations
          learningPriorityData := learningPriorityData rr.recommendations
          progressionTrendData := progressionTrendData rr.recommendations
          experienceTimelineData := experienceTimelineData cvDetail nowYear
          skillHeatmapData := skillHeatmapData rr.recommendations cvDetail }

/-- Condition of the empty-result notice in the `Recommendations` component
(part_001 lines 1662 and 1675): recommendations are loaded and the list is
empty. -/
def emptyNoticeShown (recommendations : Option RecommendationResult) : Bool :=
  match recommendations with
  | none => false
  | some rr => rr.recommendations.isEmpty

/-- Condition of the error banner in the `Recommendations` component
(part_001 line 933): the `error` state string is truthy. -/
def errorBannerShown (error : String) : Bool :=
  decide (error ≠ "")

/-! ### Local storage (part_006) -/

structure SnapshotSkill where
  name : String
  category : String
deriving DecidableEq

structure SnapshotRec where
  pathway : String
  matchScore : ℚ
deriving DecidableEq

structure CVSnapshot where
  cvId : ℤ
  filename : String
  uploadDate : String
  skillsCount : ℤ
  topMatchScore : ℚ
  skills : List SnapshotSkill
  recommendations : List SnapshotRec
deriving DecidableEq

structure ProgressSnapshot where
  date : String
  cvId : ℤ
  skillsCount : ℤ
  topMatchScore : ℚ
  newSkills : List String
deriving DecidableEq

/-- `cvStorage.saveCVSnapshot` (part_006 lines 32-55) as a function on the
stored history: replace the snapshot with the same `cvId` or append, then drop
the oldest entry if more than 10 remain. -/
def saveCVSnapshot (history : List CVSnapshot) (snapshot : CVSnapshot) : List CVSnapshot :=
  let history' :=
    match history.findIdx? (fun cv => cv.cvId == snapshot.cvId) with
    | some i => history.set i snapshot
    | none => history ++ [snapshot]
  if 10 < history'.length then history'.drop 1 else history'

/-- `cvStorage.saveProgressSnapshot` (part_006 lines 125-139): append, then
drop the oldest entry if more than 50 remain. -/
def saveProgressSnapshot (history : List ProgressSnapshot) (snapshot : ProgressSnapshot) :
    List ProgressSnapshot :=
  let history' := history ++ [snapshot]
  if 50 < history'.length then history'.drop 1 else history'

/-! ### Learning roadmap progress (part_005) -/

structure Phase where
  phase_number : ℤ
  name : String
  skills : List String
  estimated_weeks : ℚ
  priority : String
deriving DecidableEq

structure Roadmap where
  pathway : String
  description : String
  phases : List Phase
deriving DecidableEq

/-- A JS number that may be the result of `0/0`: either an ordinary (rational)
value, `NaN`, or a signed infinity. -/
inductive JsNum where
  | num (q : ℚ)
  | nan
  | inf
  | neginf
deriving DecidableEq

/-- JS division on numbers, with the IEEE special cases for a zero divisor. -/
def jsDiv (a b : ℚ) : JsNum :=
  if b = 0 then (if a = 0 then .nan else if 0 < a then .inf else .neginf)
  else .num (a / b)

/-- JS multiplication of a possibly-special number by an ordinary one. -/
def jsMulC (x : JsNum) (c : ℚ) : JsNum :=
  match x with
  | .num q => .num (q * c)
  | .nan => .nan
  | .inf => if c = 0 then .nan else if 0 < c then .inf else .neginf
  | .neginf => if c = 0 then .nan else if 0 < c then .neginf else .inf

/-- `roadmap.phases.reduce((sum, p) => sum + p.skills.length, 0)`
(part_005 line 198). -/
def totalPhaseSkills (r : Roadmap) : ℕ :=
  r.phases.foldl (fun sum p => sum + p.skills.length) 0

/-- All skills of all phases, with multiplicity. -/
def allPhaseSkills (r : Roadmap) : List String :=
  (r.phases.map Phase.skills).flatten

/-- `overallProgress` (part_005 line 198):
`(completedSkills.size / total) * 100` with no guard on the divisor.
`completedSkills` is the component's `Set<string>` state. -/
def overallProgress (completedSkills : Finset String) (r : Roadmap) : JsNum :=
  jsMulC (jsDiv (completedSkills.card : ℚ) ((totalPhaseSkills r : ℚ))) 100

/-! ### Concrete inputs for counterexamples and witnesses -/

/-- A recommendation with the given skill-gap list and match score 1/2; the
other fields are absent/neutral. -/
def mkRec (skills : List String) : PathwayRecommendation :=
  { pathway := "Backend Developer"
    match_score := 1 / 2
    recommended_skills := skills
    experience_relevance := none
    career_progression_score := none
    recency_boost := none }

/-- Sixteen ranked recommendations, nine of which list the gap skill "sql":
impact of "sql" is 9/16 = 56.25%, strictly between 50% and 60%. -/
def c1recs : List PathwayRecommendation :=
  List.replicate 9 (mkRec ["sql"]) ++ List.replicate 7 (mkRec [])

/-- One recommendation whose skill-gap list contains "sql" twice. -/
def c2recs : List PathwayRecommendation :=
  [mkRec ["sql", "sql"]]

/-- One recommendation listing the two gap skills "go" and "sql". -/
def wrecs : List PathwayRecommendation :=
  [mkRec ["go", "sql"]]

/-- A work experience with no dates: the timeline derives its start year from
the ambient clock. -/
def clockExp : WorkExperience :=
  { job_title := "Developer"
    company_name := none
    start_date := none
    end_date := none
    duration_months := some 12
    technologies_used := none
    is_current := false
    seniority_level := none }

/-- A CV detail whose only experience has no explicit dates. -/
def clockCV : CVDetail :=
  { skills := [], work_experiences := [clockExp] }

/-- A CV detail whose only experience carries explicit start and end dates. -/
def datedCV : CVDetail :=
  { skills := []
    work_experiences :=
      [{ job_title := "Developer"
         company_name := some "Acme"
         start_date := some 2020
         end_date := some 2022
         duration_months := some 24
         technologies_used := some "python"
         is_current := false
         seniority_level := some "Senior" }] }

/-- A recommendation result with one entry (for evaluating `getChartData`). -/
def oneRecResult : RecommendationResult :=
  { cv_id := 1, recommendations := [mkRec []], total_skills := 0 }

/-- A roadmap with a single phase holding a single skill. -/
def oneSkillRoadmap : Roadmap :=
  { pathway := "Backend Developer"
    description := ""
    phases :=
      [{ phase_number := 1
         name := "Foundations"
         skills := ["sql"]
         estimated_weeks := 4
         priority := "critical" }] }

/-- An empty CV snapshot for exercising the storage bound. -/
def emptyCVSnapshot : CVSnapshot :=
  { cvId := 1
    filename := "cv.pdf"
    uploadDate := "2024-01-01"
    skillsCount := 0
    topMatchScore := 0
    skills := []
    recommendations := [] }

/-- An empty progress snapshot for exercising the storage bound. -/
def emptyProgressSnapshot : ProgressSnapshot :=
  { date := "2024-01-01"
    cvId := 1
    skillsCount := 0
    topMatchScore := 0
    newSkills := [] }

/-! ### Specification-side helpers (used only to state and prove properties) -/

/-- Lookup in the `allMissingSkills` association map. -/
def entryFor (m : List (String × ℕ × ℚ)) (s : String) : Option (ℕ × ℚ) :=
  match m with
  | [] => none
  | (k, v) :: rest => if k = s then some v else entryFor rest s

/-- The count stored for a key (0 when absent). -/
def countOf (m : List (String × ℕ × ℚ)) (s : String) : ℕ :=
  match entryFor m s with
  | none => 0
  | some p => p.1

/-- Keys of the association map, in order. -/
def keysOf (m : List (String × ℕ × ℚ)) : List String :=
  m.map Prod.fst

/-- Total number of occurrences of a skill across all recommendations'
skill-gap lists. -/
def occTotal (recs : List PathwayRecommendation) (s : String) : ℕ :=
  (recs.map fun r => r.recommended_skills.count s).sum

/-! ## Theorems -/

/-- C10: the excellent / good / fair buckets of `scoreRanges` partition the
recommendation list: the three counts always sum to the list length. -/
theorem scoreRanges_partition (recs : List PathwayRecommendation) :
    (scoreRanges recs).1 + (scoreRanges recs).2.1 + (scoreRanges recs).2.2 = recs.length := by
  induction recs with
  | nil => rfl
  | cons r t ih =>
    simp only [scoreRanges, List.filter_cons, List.length_cons] at ih ⊢
    rcases lt_or_le r.match_score (0.5 : ℚ) with h5 | h5
    · have h7 : ¬ (0.7 : ℚ) ≤ r.match_score := not_le.mpr (lt_of_lt_of_le h5 (by norm_num))
      have hmid : ¬ ((0.5 : ℚ) ≤ r.match_score ∧ r.match_score < 0.7) :=
        fun hc => (not_le.mpr h5) hc.1
      rw [if_neg (by simp [h7]), if_neg (by simp [hmid]), if_pos (by simp [h5])]
      simp only [List.length_cons]
      omega
    · rcases lt_or_le r.match_score (0.7 : ℚ) with h7 | h7
      · rw [if_neg (by simp [not_le.mpr h7]), if_pos (by simp [h5, h7]),
          if_neg (by simp [not_lt.mpr h5])]
        simp only [List.length_cons]
        omega
      · rw [if_pos (by simp [h7]), if_neg (by simp [not_lt.mpr h7]),
          if_neg (by simp [not_lt.mpr (le_trans (show (0.5 : ℚ) ≤ 0.7 by norm_num) h7)])]
        simp only [List.length_cons]
        omega

/-- C8: a single `saveCVSnapshot` keeps the CV history within 10 entries and a
single `saveProgressSnapshot` keeps the progress history within 50 entries,
assuming the respective bound held before the call. -/
theorem storage_bounds (h : List CVSnapshot) (s : CVSnapshot)
    (ph : List ProgressSnapshot) (ps : ProgressSnapshot)
    (hcv : h.length ≤ 10) (hp : ph.length ≤ 50) :
    (saveCVSnapshot h s).length ≤ 10 ∧ (saveProgressSnapshot ph ps).length ≤ 50 := by
  constructor
  · simp only [saveCVSnapshot]
    cases hidx : h.findIdx? fun cv => cv.cvId == s.cvId with
    | some i =>
      split
      · rename_i hgt
        simp only [List.length_set] at hgt
        omega
      · simp only [List.length_set]
        omega
    | none =>
      split
      · rename_i hgt
        simp only [List.length_drop, List.length_append, List.length_singleton] at hgt ⊢
        omega
      · rename_i hle
        simp only [List.length_append, List.length_singleton] at hle ⊢
        omega
  · simp only [saveProgressSnapshot]
    split
    · rename_i hgt
      simp only [List.length_drop, List.length_append, List.length_singleton] at hgt ⊢
      omega
    · rename_i hle
      simp only [List.length_append, List.length_singleton] at hle ⊢
      omega

/-- C8 witness: saving into empty histories stays within the bounds. -/
theorem storage_bounds_witness :
    ([] : List CVSnapshot).length ≤ 10 ∧ ([] : List ProgressSnapshot).length ≤ 50 ∧
    ((saveCVSnapshot [] emptyCVSnapshot).length ≤ 10 ∧
     (saveProgressSnapshot [] emptyProgressSnapshot).length ≤ 50) :=
  ⟨by decide, by decide, storage_bounds [] emptyCVSnapshot [] emptyProgressSnapshot (by decide) (by decide)⟩

/-- C7: an empty recommendation list is a valid, non-error outcome of the
analytics derivation: `getChartData` yields `none` exactly when the list is
empty (and when nothing is loaded), with no division performed, and the
empty-result notice is driven by the list being empty while the error banner
is driven by the separate error string, which is blank in this outcome. -/
theorem chartData_empty_is_valid (rr : RecommendationResult) (cv : Option CVDetail) (now : ℚ) :
    ((getChartData (some rr) cv now).isNone = rr.recommendations.isEmpty)
    ∧ getChartData none cv now = none
    ∧ emptyNoticeShown (some rr) = rr.recommendations.isEmpty
    ∧ errorBannerShown "" = false := by
  refine ⟨?_, rfl, rfl, by decide⟩
  by_cases he : rr.recommendations.isEmpty <;> simp [getChartData, he]

/-- C5: every learning-priority entry's difficulty is a function of the skill
name's length alone: 70 when the name is longer than 8 characters, else 40. -/
theorem difficulty_from_name_length (recs : List PathwayRecommendation)
    (e : PriorityDatum) (he : e ∈ learningPriorityData recs) :
    e.difficulty = if 8 < e.skill.length then (70 : ℚ) else 40 := by
  unfold learningPriorityData at he
  obtain ⟨x, _, rfl⟩ := List.mem_map.mp he
  rfl

/-- The four color tiers of `tierColor` are characterized exactly by crossing
impact and difficulty at 60. -/
theorem tierColor_spec (i d : ℚ) :
    (tierColor i d = "#10b981" ↔ 60 < i ∧ d < 60)
    ∧ (tierColor i d = "#f59e0b" ↔ 60 < i ∧ 60 ≤ d)
    ∧ (tierColor i d = "#3b82f6" ↔ i ≤ 60 ∧ d < 60)
    ∧ (tierColor i d = "#ef4444" ↔ i ≤ 60 ∧ 60 ≤ d) := by
  unfold tierColor
  rcases le_or_lt i 60 with hi | hi <;> rcases lt_or_le d 60 with hd | hd
  · rw [if_neg (fun hc => (not_lt.mpr hi) hc.1), if_neg (fun hc => (not_lt.mpr hi) hc.1),
      if_pos ⟨hi, hd⟩]
    exact ⟨⟨fun h => absurd h (by decide), fun hc => absurd hc.1 (not_lt.mpr hi)⟩,
      ⟨fun h => absurd h (by decide), fun hc => absurd hc.1 (not_lt.mpr hi)⟩,
      ⟨fun _ => ⟨hi, hd⟩, fun _ => rfl⟩,
      ⟨fun h => absurd h (by decide), fun hc => absurd hc.2 (not_le.mpr hd)⟩⟩
  · rw [if_neg (fun hc => (not_lt.mpr hi) hc.1), if_neg (fun hc => (not_lt.mpr hi) hc.1),
      if_neg (fun hc => (not_lt.mpr hd) hc.2)]
    exact ⟨⟨fun h => absurd h (by decide), fun hc => absurd hc.1 (not_lt.mpr hi)⟩,
      ⟨fun h => absurd h (by decide), fun hc => absurd hc.1 (not_lt.mpr hi)⟩,
      ⟨fun h => absurd h (by decide), fun hc => absurd hc.2 (not_lt.mpr hd)⟩,
      ⟨fun _ => ⟨hi, hd⟩, fun _ => rfl⟩⟩
  · rw [if_pos ⟨hi, hd⟩]
    exact ⟨⟨fun _ => ⟨hi, hd⟩, fun _ => rfl⟩,
      ⟨fun h => absurd h (by decide), fun hc => absurd hc.2 (not_le.mpr hd)⟩,
      ⟨fun h => absurd h (by decide), fun hc => absurd hc.1 (not_le.mpr hi)⟩,
      ⟨fun h => absurd h (by decide), fun hc => absurd hc.1 (not_le.mpr hi)⟩⟩
  · rw [if_neg (fun hc => (not_lt.mpr hd) hc.2), if_pos ⟨hi, hd⟩]
    exact ⟨⟨fun h => absurd h (by decide), fun hc => absurd hc.2 (not_lt.mpr hd)⟩,
      ⟨fun _ => ⟨hi, hd⟩, fun _ => rfl⟩,
      ⟨fun h => absurd h (by decide), fun hc => absurd hc.1 (not_le.mpr hi)⟩,
      ⟨fun h => absurd h (by decide), fun hc => absurd hc.1 (not_le.mpr hi)⟩⟩

unseal Rat.ofScientific Rat.add Rat.sub Rat.mul Rat.inv in
/-- C1 counterexample: with 16 ranked recommendations of which 9 list "sql",
the skill's impact is 56.25 — above the 50% midpoint, with difficulty 40 below
50% — yet its tier color is blue ("#3b82f6"), not the highest-priority green:
the code crosses at 60, not at the midpoint claimed by the spec. -/
theorem priority_midpoint_counterexample :
    learningPriorityData c1recs =
      [{ skill := "sql", impact := 225 / 4, difficulty := 40, size := 23, color := "#3b82f6" }]
    ∧ (50 : ℚ) < 225 / 4 ∧ (40 : ℚ) < 50 ∧ ("#3b82f6" : String) ≠ "#10b981" :=
  ⟨by decide, by norm_num, by norm_num, by decide⟩

/-- C1 (amended): for every non-empty recommendation list, the learning
priority entries are bucketed into the four tiers by crossing impact against
difficulty at 60 (not at the 50% midpoint): impact above 60 with difficulty
below 60 is the highest-priority tier (green), impact at most 60 with
difficulty at least 60 the lowest (red), and the mixed combinations the two
middle tiers. -/
theorem priority_tiers (recs : List PathwayRecommendation) (_hne : recs ≠ [])
    (e : PriorityDatum) (he : e ∈ learningPriorityData recs) :
    (e.color = "#10b981" ↔ 60 < e.impact ∧ e.difficulty < 60)
    ∧ (e.color = "#f59e0b" ↔ 60 < e.impact ∧ 60 ≤ e.difficulty)
    ∧ (e.color = "#3b82f6" ↔ e.impact ≤ 60 ∧ e.difficulty < 60)
    ∧ (e.color = "#ef4444" ↔ e.impact ≤ 60 ∧ 60 ≤ e.difficulty) := by
  unfold learningPriorityData at he
  obtain ⟨x, _, rfl⟩ := List.mem_map.mp he
  exact tierColor_spec _ _

unseal Rat.ofScientific Rat.add Rat.sub Rat.mul Rat.inv in
/-- C1 witness: the entry for "go" in a one-recommendation list has impact 100
and difficulty 40 and receives the highest-priority green tier. -/
theorem priority_tiers_witness :
    (wrecs ≠ [] ∧
      ({ skill := "go", impact := 100, difficulty := 40, size := 7, color := "#10b981" } : PriorityDatum)
        ∈ learningPriorityData wrecs)
    ∧ (({ skill := "go", impact := 100, difficulty := 40, size := 7, color := "#10b981" } : PriorityDatum).color = "#10b981"
        ↔ 60 < ({ skill := "go", impact := 100, difficulty := 40, size := 7, color := "#10b981" } : PriorityDatum).impact
          ∧ ({ skill := "go", impact := 100, difficulty := 40, size := 7, color := "#10b981" } : PriorityDatum).difficulty < 60) :=
  ⟨⟨by decide, by decide⟩, (priority_tiers wrecs (by decide) _ (by decide)).1⟩

unseal Rat.ofScientific Rat.add Rat.sub Rat.mul Rat.inv in
/-- C2 counterexample: when one recommendation lists the same skill twice, the
computed impact is 200, while the fraction of ranked pathways that list the
skill is 100%: the code counts occurrences, not pathways. -/
theorem impact_duplicates_counterexample :
    learningPriorityData c2recs =
      [{ skill := "sql", impact := 200, difficulty := 40, size := 9, color := "#10b981" }]
    ∧ ((c2recs.filter fun r => decide ("sql" ∈ r.recommended_skills)).length : ℚ)
        / (c2recs.length : ℚ) * 100 = 100
    ∧ (200 : ℚ) ≠ 100 :=
  ⟨by decide,
   by
     rw [show (c2recs.filter fun r => decide ("sql" ∈ r.recommended_skills)).length = 1 from by decide,
       show c2recs.length = 1 from rfl]
     norm_num,
   by norm_num⟩

/-- Bumping a key yields that key's entry with count and score accumulated. -/
theorem entryFor_bumpMissing_same (m : List (String × ℕ × ℚ)) (k : String) (sc : ℚ) :
    entryFor (bumpMissing m k sc) k =
      some (match entryFor m k with
            | none => (1, sc)
            | some p => (p.1 + 1, p.2 + sc)) := by
  induction m with
  | nil => simp [bumpMissing, entryFor]
  | cons hd tl ih =>
    obtain ⟨k', c, a⟩ := hd
    by_cases hk : k' = k
    · subst hk
      simp [bumpMissing, entryFor]
    · simp [bumpMissing, entryFor, hk, ih]

/-- Bumping one key leaves every other key's entry unchanged. -/
theorem entryFor_bumpMissing_ne (m : List (String × ℕ × ℚ)) (k s : String) (sc : ℚ)
    (h : s ≠ k) : entryFor (bumpMissing m k sc) s = entryFor m s := by
  induction m with
  | nil => simp [bumpMissing, entryFor, Ne.symm h]
  | cons hd tl ih =>
    obtain ⟨k', c, a⟩ := hd
    by_cases hk : k' = k
    · subst hk
      simp [bumpMissing, entryFor, Ne.symm h]
    · simp only [bumpMissing, if_neg hk]
      by_cases hs : k' = s
      · simp [entryFor, hs]
      · simp [entryFor, hs, ih]

/-- The count tracked for a key after a bump. -/
theorem countOf_bumpMissing (m : List (String × ℕ × ℚ)) (k s : String) (sc : ℚ) :
    countOf (bumpMissing m k sc) s = countOf m s + (if s = k then 1 else 0) := by
  by_cases h : s = k
  · subst h
    rw [countOf, entryFor_bumpMissing_same]
    cases he : entryFor m s <;> simp [countOf, he]
  · rw [countOf, entryFor_bumpMissing_ne m k s sc h]
    simp [countOf, h]

/-- Folding a skill list into the map adds each skill's multiplicity. -/
theorem countOf_foldSkills (sks : List String) (m : List (String × ℕ × ℚ)) (sc : ℚ) (s : String) :
    countOf (sks.foldl (fun m' sk => bumpMissing m' sk sc) m) s = countOf m s + sks.count s := by
  induction sks generalizing m with
  | nil => simp
  | cons k tl ih =>
    simp only [List.foldl_cons]
    rw [ih, countOf_bumpMissing, List.count_cons]
    by_cases h : s = k
    · subst h
      simp
      omega
    · simp [h, beq_eq_false_iff_ne.mpr h, beq_eq_false_iff_ne.mpr (Ne.symm h)]

/-- The count in `allMissingSkills` is the total number of occurrences of the
skill across all recommendations. -/
theorem countOf_allMissingSkills (recs : List PathwayRecommendation) (s : String) :
    countOf (allMissingSkills recs) s = occTotal recs s := by
  suffices h : ∀ (l : List PathwayRecommendation) (m : List (String × ℕ × ℚ)),
      countOf (l.foldl (fun m' rec =>
        rec.recommended_skills.foldl (fun m'' sk => bumpMissing m'' sk rec.match_score) m') m) s
      = countOf m s + occTotal l s by
    simpa [allMissingSkills, countOf, entryFor] using h recs []
  intro l
  induction l with
  | nil => intro m; simp [occTotal]
  | cons r tl ih =>
    intro m
    simp only [List.foldl_cons]
    rw [ih, countOf_foldSkills]
    simp only [occTotal, List.map_cons, List.sum_cons]
    omega

/-- Keys present after a bump: the old keys, plus the bumped key. -/
theorem mem_keysOf_bumpMissing (m : List (String × ℕ × ℚ)) (k : String) (sc : ℚ) (s : String) :
    s ∈ keysOf (bumpMissing m k sc) ↔ s ∈ keysOf m ∨ s = k := by
  induction m with
  | nil => simp [bumpMissing, keysOf]
  | cons hd tl ih =>
    obtain ⟨k', c, a⟩ := hd
    by_cases hk : k' = k
    · subst hk
      simp only [bumpMissing, if_pos rfl]
      constructor
      · intro hs; exact Or.inl hs
      · rintro (hs | rfl)
        · exact hs
        · simp [keysOf]
    · simp only [bumpMissing, if_neg hk, keysOf, List.map_cons, List.mem_cons] at ih ⊢
      rw [ih]
      tauto

/-- Bumping preserves distinctness of the keys. -/
theorem nodup_keysOf_bumpMissing (m : List (String × ℕ × ℚ)) (k : String) (sc : ℚ)
    (h : (keysOf m).Nodup) : (keysOf (bumpMissing m k sc)).Nodup := by
  induction m with
  | nil => simp [bumpMissing, keysOf]
  | cons hd tl ih =>
    obtain ⟨k', c, a⟩ := hd
    simp only [keysOf, List.map_cons, List.nodup_cons] at h
    by_cases hk : k' = k
    · subst hk
      have hb : bumpMissing ((k', c, a) :: tl) k' sc = (k', c + 1, a + sc) :: tl := by
        simp [bumpMissing]
      rw [hb]
      simp only [keysOf, List.map_cons, List.nodup_cons]
      exact h
    · simp only [bumpMissing, if_neg hk, keysOf, List.map_cons, List.nodup_cons]
      refine ⟨?_, ih h.2⟩
      intro hc
      rcases (mem_keysOf_bumpMissing tl k sc k').mp hc with hc' | hc'
      · exact h.1 hc'
      · exact hk hc'

/-- Folding a skill list preserves distinctness of the keys. -/
theorem nodup_keysOf_foldSkills (sks : List String) (m : List (String × ℕ × ℚ)) (sc : ℚ)
    (h : (keysOf m).Nodup) :
    (keysOf (sks.foldl (fun m' sk => bumpMissing m' sk sc) m)).Nodup := by
  induction sks generalizing m with
  | nil => exact h
  | cons k tl ih =>
    simp only [List.foldl_cons]
    exact ih _ (nodup_keysOf_bumpMissing m k sc h)

/-- The keys of `allMissingSkills` are distinct. -/
theorem nodup_keysOf_allMissingSkills (recs : List PathwayRecommendation) :
    (keysOf (allMissingSkills recs)).Nodup := by
  suffices h : ∀ (l : List PathwayRecommendation) (m : List (String × ℕ × ℚ)),
      (keysOf m).Nodup →
      (keysOf (l.foldl (fun m' rec =>
        rec.recommended_skills.foldl (fun m'' sk => bumpMissing m'' sk rec.match_score) m') m)).Nodup by
    exact h recs [] (by simp [keysOf])
  intro l
  induction l with
  | nil => intro m hm; exact hm
  | cons r tl ih =>
    intro m hm
    simp only [List.foldl_cons]
    exact ih _ (nodup_keysOf_foldSkills _ m _ hm)

/-- With distinct keys, membership determines the looked-up entry. -/
theorem entryFor_of_mem (m : List (String × ℕ × ℚ)) (h : (keysOf m).Nodup)
    {s : String} {v : ℕ × ℚ} (hm : (s, v) ∈ m) : entryFor m s = some v := by
  induction m with
  | nil => cases hm
  | cons hd tl ih =>
    obtain ⟨k, w⟩ := hd
    simp only [keysOf, List.map_cons, List.nodup_cons] at h
    rcases List.mem_cons.mp hm with heq | htl
    · obtain ⟨hk, hw⟩ := Prod.mk.injEq .. ▸ heq
      subst hk; subst hw
      simp [entryFor]
    · have hk : k ≠ s := by
        intro he
        subst he
        exact h.1 (List.mem_map.mpr ⟨(k, v), htl, rfl⟩)
      simp only [entryFor, if_neg hk]
      exact ih h.2 htl

/-- With duplicate-free per-recommendation skill lists, the occurrence total is
the number of recommendations listing the skill. -/
theorem occTotal_eq_filter_length (recs : List PathwayRecommendation) (s : String)
    (hnd : ∀ r ∈ recs, r.recommended_skills.Nodup) :
    occTotal recs s = (recs.filter fun r => decide (s ∈ r.recommended_skills)).length := by
  induction recs with
  | nil => rfl
  | cons r tl ih =>
    have hr := hnd r (List.mem_cons_self r tl)
    have htl : ∀ x ∈ tl, x.recommended_skills.Nodup := fun x hx => hnd x (List.mem_cons_of_mem r hx)
    have hsum : occTotal (r :: tl) s = r.recommended_skills.count s + occTotal tl s := by
      simp [occTotal]
    by_cases hm : s ∈ r.recommended_skills
    · rw [hsum, List.count_eq_one_of_mem hr hm, ih htl, List.filter_cons,
        if_pos (by simp [hm]), List.length_cons]
      omega
    · rw [hsum, List.count_eq_zero.mpr hm, ih htl, List.filter_cons,
        if_neg (by simp [hm])]
      omega

/-- C2 (amended): for every non-empty recommendation list in which no single
recommendation lists the same skill twice, each learning-priority entry's
impact is the fraction (as a percentage) of the ranked recommendations whose
skill-gap list contains the skill; in general the code counts occurrences, so
a duplicated skill in one list breaks the fraction reading. -/
theorem impact_is_listing_fraction (recs : List PathwayRecommendation) (_hne : recs ≠ [])
    (hnd : ∀ r ∈ recs, r.recommended_skills.Nodup)
    (e : PriorityDatum) (he : e ∈ learningPriorityData recs) :
    e.impact = ((recs.filter fun r => decide (e.skill ∈ r.recommended_skills)).length : ℚ)
      / (recs.length : ℚ) * 100 := by
  unfold learningPriorityData at he
  obtain ⟨x, hx, rfl⟩ := List.mem_map.mp he
  have hxm : x ∈ allMissingSkills recs := List.mem_of_mem_take hx
  have hx1 : entryFor (allMissingSkills recs) x.1 = some x.2 := by
    apply entryFor_of_mem _ (nodup_keysOf_allMissingSkills recs)
    simpa using hxm
  have hcount : x.2.1 = occTotal recs x.1 := by
    have hc := countOf_allMissingSkills recs x.1
    rw [countOf, hx1] at hc
    exact hc
  have hskill : (mkPriorityEntry recs.length x).skill = x.1 := rfl
  have himpact : (mkPriorityEntry recs.length x).impact = (x.2.1 : ℚ) / (recs.length : ℚ) * 100 := rfl
  rw [himpact, hskill, hcount, occTotal_eq_filter_length recs x.1 hnd]

unseal Rat.ofScientific Rat.add Rat.sub Rat.mul Rat.inv in
/-- C2 witness: in a one-recommendation list with distinct skills, the entry
for "go" has impact 100, the fraction of pathways listing it. -/
theorem impact_is_listing_fraction_witness :
    (wrecs ≠ [] ∧ ∀ r ∈ wrecs, r.recommended_skills.Nodup)
    ∧ ({ skill := "go", impact := 100, difficulty := 40, size := 7, color := "#10b981" } : PriorityDatum).impact
      = ((wrecs.filter fun r => decide (({ skill := "go", impact := 100, difficulty := 40, size := 7, color := "#10b981" } : PriorityDatum).skill ∈ r.recommended_skills)).length : ℚ)
        / (wrecs.length : ℚ) * 100 :=
  ⟨⟨by decide, by decide⟩, impact_is_listing_fraction wrecs (by decide) (by decide) _ (by decide)⟩

unseal Rat.ofScientific Rat.add Rat.sub Rat.mul Rat.inv in
/-- C5 witness: the entry for "go" (length 2) receives difficulty 40. -/
theorem difficulty_from_name_length_witness :
    (({ skill := "go", impact := 100, difficulty := 40, size := 7, color := "#10b981" } : PriorityDatum)
        ∈ learningPriorityData wrecs)
    ∧ (({ skill := "go", impact := 100, difficulty := 40, size := 7, color := "#10b981" } : PriorityDatum).difficulty
        = if 8 < ({ skill := "go", impact := 100, difficulty := 40, size := 7, color := "#10b981" } : PriorityDatum).skill.length then (70 : ℚ) else 40) :=
  ⟨by decide, difficulty_from_name_length wrecs _ (by decide)⟩

/-- The phase-skill fold of `overallProgress` counts all phase skills. -/
theorem totalPhaseSkills_eq_length (r : Roadmap) :
    totalPhaseSkills r = (allPhaseSkills r).length := by
  suffices h : ∀ (l : List Phase) (n : ℕ),
      l.foldl (fun sum p => sum + p.skills.length) n = n + ((l.map Phase.skills).flatten).length by
    simpa [totalPhaseSkills, allPhaseSkills] using h r.phases 0
  intro l
  induction l with
  | nil => intro n; simp
  | cons p tl ih =>
    intro n
    simp only [List.foldl_cons, List.map_cons, List.flatten_cons, List.length_append]
    rw [ih]
    omega

/-- C9: the roadmap progress is `completed / total * 100` with no guard on the
divisor: whenever the completed set only holds skills of the roadmap (which the
toggle handler guarantees), a roadmap with at least one phase skill yields a
number in [0, 100], while a roadmap with no phase skills yields `NaN` via the
unguarded `0 / 0`. -/
theorem overallProgress_spec (completed : Finset String) (r : Roadmap)
    (hsub : ∀ s ∈ completed, s ∈ allPhaseSkills r) :
    (totalPhaseSkills r = 0 → overallProgress completed r = JsNum.nan)
    ∧ (0 < totalPhaseSkills r →
        ∃ q, overallProgress completed r = JsNum.num q ∧ 0 ≤ q ∧ q ≤ 100) := by
  have hcard : completed.card ≤ totalPhaseSkills r := by
    rw [totalPhaseSkills_eq_length]
    calc completed.card ≤ (allPhaseSkills r).toFinset.card :=
          Finset.card_le_card fun s hs => List.mem_toFinset.mpr (hsub s hs)
      _ ≤ (allPhaseSkills r).length := (allPhaseSkills r).toFinset_card_le
  constructor
  · intro h0
    have hc0 : completed.card = 0 := by omega
    unfold overallProgress
    rw [h0, hc0]
    simp [jsDiv, jsMulC]
  · intro hpos
    have hTne : ((totalPhaseSkills r : ℚ)) ≠ 0 := by
      exact_mod_cast Nat.pos_iff_ne_zero.mp hpos
    refine ⟨(completed.card : ℚ) / (totalPhaseSkills r : ℚ) * 100, ?_, ?_, ?_⟩
    · unfold overallProgress jsDiv
      rw [if_neg hTne]
      rfl
    · positivity
    · have hle : (completed.card : ℚ) ≤ (totalPhaseSkills r : ℚ) := by exact_mod_cast hcard
      have hTpos : (0 : ℚ) < (totalPhaseSkills r : ℚ) := by exact_mod_cast hpos
      have h1 : (completed.card : ℚ) / (totalPhaseSkills r : ℚ) ≤ 1 := by
        rw [div_le_one hTpos]
        exact hle
      linarith

/-- C9 witness: with no skill completed and one phase skill, the progress is a
number between 0 and 100. -/
theorem overallProgress_spec_witness :
    (∀ s ∈ (∅ : Finset String), s ∈ allPhaseSkills oneSkillRoadmap)
    ∧ 0 < totalPhaseSkills oneSkillRoadmap
    ∧ ∃ q, overallProgress ∅ oneSkillRoadmap = JsNum.num q ∧ 0 ≤ q ∧ q ≤ 100 :=
  ⟨by decide, by decide,
   (overallProgress_spec ∅ oneSkillRoadmap (by decide)).2 (by decide)⟩

/-- A timeline entry built from an experience with an explicit start date and
either an explicit end date or no current flag does not depend on the clock. -/
theorem mkTimelineEntry_clock_indep (y1 y2 : ℚ) (e : WorkExperience)
    (hs : e.start_date.isSome = true)
    (he : e.end_date.isSome = true ∨ e.is_current = false) :
    mkTimelineEntry y1 e = mkTimelineEntry y2 e := by
  obtain ⟨ys, hys⟩ := Option.isSome_iff_exists.mp hs
  cases hend : e.end_date with
  | some ye => simp [mkTimelineEntry, hys, hend]
  | none =>
    rcases he with hesome | hcur
    · rw [hend] at hesome
      simp at hesome
    · simp [mkTimelineEntry, hys, hend, hcur]

/-- The experience timeline does not depend on the clock when every eligible
experience carries explicit dates. -/
theorem experienceTimelineData_clock_indep (cv : Option CVDetail) (y1 y2 : ℚ)
    (h : ∀ e ∈ cvExperiences cv,
      e.start_date.isSome = true ∧ (e.end_date.isSome = true ∨ e.is_current = false)) :
    experienceTimelineData cv y1 = experienceTimelineData cv y2 := by
  unfold experienceTimelineData
  congr 1
  apply List.map_congr_left
  intro e he'
  have hm := List.mem_of_mem_filter he'
  exact mkTimelineEntry_clock_indep y1 y2 e (h e hm).1 (h e hm).2

unseal Rat.ofScientific Rat.add Rat.sub Rat.mul Rat.inv in
/-- C6 counterexample: the analytics derivation reads the ambient clock — for
a CV whose experience has no explicit dates, evaluating at clock year 2025 and
at clock year 2026 yields different chart data for identical recommendation
and CV inputs. -/
theorem chartData_reads_clock_counterexample :
    getChartData (some oneRecResult) (some clockCV) 2025
      ≠ getChartData (some oneRecResult) (some clockCV) 2026 := by decide

/-- C6 (amended): the analytics derivation is a pure function of the
recommendation result, the CV detail and the clock year; it is independent of
the clock year whenever every work experience has an explicit start date and
either an explicit end date or is not marked current. -/
theorem chartData_deterministic_given_clock (recommendations : Option RecommendationResult)
    (cv : Option CVDetail) (y1 y2 : ℚ)
    (h : ∀ e ∈ cvExperiences cv,
      e.start_date.isSome = true ∧ (e.end_date.isSome = true ∨ e.is_current = false)) :
    getChartData recommendations cv y1 = getChartData recommendations cv y2 := by
  cases recommendations with
  | none => rfl
  | some rr =>
    simp only [getChartData]
    by_cases hemp : rr.recommendations.isEmpty
    · simp [hemp]
    · simp only [if_neg hemp]
      rw [experienceTimelineData_clock_indep cv y1 y2 h]

/-- C6 witness: for a CV with fully dated experiences, the chart data is the
same at clock years 2025 and 2026. -/
theorem chartData_deterministic_witness :
    (∀ e ∈ cvExperiences (some datedCV),
      e.start_date.isSome = true ∧ (e.end_date.isSome = true ∨ e.is_current = false))
    ∧ getChartData (some oneRecResult) (some datedCV) 2025
        = getChartData (some oneRecResult) (some datedCV) 2026 :=
  ⟨by decide,
   chartData_deterministic_given_clock (some oneRecResult) (some datedCV) 2025 2026 (by decide)⟩

/-- `leadsWith` decides the prefix relation. -/
theorem leadsWith_iff (s : List Char) : ∀ b, leadsWith s b = true ↔ s <+: b := by
  induction s with
  | nil => intro b; simp [leadsWith]
  | cons a as ih =>
    intro b
    cases b with
    | nil => simp [leadsWith]
    | cons c cs =>
      simp only [leadsWith, Bool.and_eq_true, beq_iff_eq, ih cs, List.cons_prefix_cons]

/-- `occursIn` decides the substring (contiguous-sublist) relation. -/
theorem occursIn_iff (s : List Char) : ∀ b, occursIn s b = true ↔ s <:+: b := by
  intro b
  induction b with
  | nil => simp [occursIn, leadsWith_iff]
  | cons c cs ih =>
    simp only [occursIn, Bool.or_eq_true, leadsWith_iff, ih, List.infix_cons_iff]

/-- Every list occurs in itself. -/
theorem occursIn_self (l : List Char) : occursIn l l = true :=
  (occursIn_iff l l).mpr (List.infix_refl l)

/-- Mapping preserves contiguous substrings. -/
theorem within_map (f : Char → Char) {l₁ l₂ : List Char} (h : l₁ <:+: l₂) :
    l₁.map f <:+: l₂.map f := by
  obtain ⟨s, t, rfl⟩ := h
  exact ⟨s.map f, t.map f, by simp⟩

/-- Filtering preserves contiguous substrings. -/
theorem within_filter (p : Char → Bool) {l₁ l₂ : List Char} (h : l₁ <:+: l₂) :
    l₁.filter p <:+: l₂.filter p := by
  obtain ⟨s, t, rfl⟩ := h
  exact ⟨s.filter p, t.filter p, by simp⟩

/-- `Char.ofNat` and `Char.toNat` cancel on small codepoints. -/
theorem toNat_ofNat_small {n : ℕ} (h : n < 55296) : (Char.ofNat n).toNat = n := by
  unfold Char.ofNat
  rw [dif_pos (Or.inl h : n.isValidChar)]
  rfl

/-- ASCII lower-casing is idempotent. -/
theorem toLower_toLower (c : Char) : c.toLower.toLower = c.toLower := by
  by_cases h : 65 ≤ c.toNat ∧ c.toNat ≤ 90
  · have h1 : c.toLower = Char.ofNat (c.toNat + 32) := by
      simp [Char.toLower, h]
    have h2 : (Char.ofNat (c.toNat + 32)).toNat = c.toNat + 32 :=
      toNat_ofNat_small (by omega)
    rw [h1]
    simp only [Char.toLower]
    rw [h2, if_neg (by omega : ¬(c.toNat + 32 ≥ 65 ∧ c.toNat + 32 ≤ 90))]
  · have h1 : c.toLower = c := by simp [Char.toLower, h]
    rw [h1, h1]

/-- Lower-casing a list of characters is idempotent. -/
theorem toLowerL_toLowerL (l : List Char) : toLowerL (toLowerL l) = toLowerL l := by
  unfold toLowerL
  rw [List.map_map]
  exact List.map_congr_left fun c _ => toLower_toLower c

/-- Canonicalization absorbs a preceding lower-casing. -/
theorem normalizeL_toLowerL (l : List Char) : normalizeL (toLowerL l) = normalizeL l := by
  unfold normalizeL
  rw [toLowerL_toLowerL]

/-- A raw containment of the lower-cased recommended skill in the user skill
implies containment of the canonical forms (checks 3b/5 imply check 2). -/
theorem norm_occursIn_of_raw_left (u r : List Char) (h : occursIn (toLowerL r) u = true) :
    occursIn (normalizeL r) (normalizeL u) = true := by
  rw [occursIn_iff] at h ⊢
  have h2 : toLowerL (toLowerL r) <:+: toLowerL u := within_map Char.toLower h
  rw [toLowerL_toLowerL] at h2
  exact within_filter _ h2

/-- A raw containment of the user skill in the lower-cased recommended skill
implies containment of the canonical forms. -/
theorem norm_occursIn_of_raw_right (u r : List Char) (h : occursIn u (toLowerL r) = true) :
    occursIn (normalizeL u) (normalizeL r) = true := by
  rw [occursIn_iff] at h ⊢
  have h2 : toLowerL u <:+: toLowerL (toLowerL r) := within_map Char.toLower h
  rw [toLowerL_toLowerL] at h2
  exact within_filter _ h2

/-- Raw equality against the lower-cased recommended skill implies canonical
equality. -/
theorem normalizeL_of_raw_eq {u r : List Char} (h : u = toLowerL r) :
    normalizeL u = normalizeL r := by
  rw [h, normalizeL_toLowerL]

/-- The non-alias matcher holds exactly when the canonical forms are equal or
one contains the other: checks 3 and 5 are subsumed by checks 1 and 2. -/
theorem matchesSkillNoAlias_iff (a b : String) :
    matchesSkillNoAlias a b = true ↔
      (normalizeL a.toList = normalizeL b.toList
       ∨ occursIn (normalizeL b.toList) (normalizeL a.toList) = true
       ∨ occursIn (normalizeL a.toList) (normalizeL b.toList) = true) := by
  unfold matchesSkillNoAlias
  simp only [Bool.or_eq_true, Bool.and_eq_true, beq_iff_eq, decide_eq_true_eq]
  constructor
  · rintro ((((h1 | h2 | h2') | h3) | h4 | h4') | ⟨⟨hl1, hl2⟩, h5 | h5'⟩)
    · exact Or.inl h1
    · exact Or.inr (Or.inl h2)
    · exact Or.inr (Or.inr h2')
    · exact Or.inl (normalizeL_of_raw_eq h3)
    · exact Or.inr (Or.inl (norm_occursIn_of_raw_left a.toList b.toList h4))
    · exact Or.inr (Or.inr (norm_occursIn_of_raw_right a.toList b.toList h4'))
    · exact Or.inr (Or.inl h5)
    · exact Or.inr (Or.inr h5')
  · rintro (h | h | h) <;> tauto

/-- C4 counterexample: the full matcher is not symmetric — the one-directional
containment checks inside the alias-table step accept the user skill "js"
against the recommended skill "ascript" but reject the reversed pair. -/
theorem matcher_asymmetric_counterexample :
    matchesSkill "js" "ascript" = true ∧ matchesSkill "ascript" "js" = false := by decide

/-- C4 (amended): the per-pair matcher with the alias-table step removed
(exact canonical equality, canonical containment, raw comparison against the
lower-cased recommended skill, and the length-guarded containment) is
symmetric for all string pairs; the alias-table step is the sole source of
asymmetry of the full matcher. -/
theorem matchesSkillNoAlias_symm (a b : String) :
    matchesSkillNoAlias a b = matchesSkillNoAlias b a := by
  have key : ∀ x y : String, matchesSkillNoAlias x y = true → matchesSkillNoAlias y x = true := by
    intro x y hxy
    rcases (matchesSkillNoAlias_iff x y).mp hxy with h | h | h
    · exact (matchesSkillNoAlias_iff y x).mpr (Or.inl h.symm)
    · exact (matchesSkillNoAlias_iff y x).mpr (Or.inr (Or.inr h))
    · exact (matchesSkillNoAlias_iff y x).mpr (Or.inr (Or.inl h))
  cases hab : matchesSkillNoAlias a b with
  | true => exact (key a b hab).symm
  | false =>
    cases hba : matchesSkillNoAlias b a with
    | false => rfl
    | true => exact absurd (key b a hba) (by simp [hab])

/-- A hit of either branch of one table entry makes the whole loop hit. -/
theorem variationsHit_of_entry {nu nr : List Char} {kv : String × List String}
    (hkv : kv ∈ variations)
    (h : entryHitFirst nu nr kv.1 kv.2 = true ∨ entryHitSecond nu nr kv.1 kv.2 = true) :
    variationsHit nu nr = true := by
  unfold variationsHit
  rw [List.any_eq_true]
  exact ⟨kv, hkv, by rcases h with h | h <;> simp [h]⟩

/-- Alias co-membership with distinct canonical forms makes the `variations`
loop return true. -/
theorem variationsHit_of_coMember (a b : String) (h : aliasCoMember a b)
    (hne : normalizeL a.toList ≠ normalizeL b.toList) :
    variationsHit (normalizeL a.toList) (normalizeL b.toList) = true := by
  obtain ⟨kv, hkv, ha, hb⟩ := h
  rw [List.mem_map] at ha hb
  obtain ⟨ma, hma, hea⟩ := ha
  obtain ⟨mb, hmb, heb⟩ := hb
  have hea' : normalizeL ma.toList = normalizeL a.toList := by
    have hc := congrArg String.toList hea
    simpa [normalizeSkill, List.toList_asString] using hc
  have heb' : normalizeL mb.toList = normalizeL b.toList := by
    have hc := congrArg String.toList heb
    simpa [normalizeSkill, List.toList_asString] using hc
  rcases List.mem_cons.mp hma with hma1 | hma2 <;> rcases List.mem_cons.mp hmb with hmb1 | hmb2
  · subst hma1; subst hmb1
    exact absurd (hea'.symm.trans heb') hne
  · subst hma1
    refine variationsHit_of_entry hkv (Or.inl ?_)
    unfold entryHitFirst
    rw [Bool.and_eq_true, Bool.or_eq_true, List.any_eq_true]
    refine ⟨Or.inr (beq_iff_eq.mpr hea'.symm), mb, hmb2, ?_⟩
    rw [Bool.or_eq_true]
    exact Or.inl (heb' ▸ occursIn_self (normalizeL b.toList))
  · subst hmb1
    refine variationsHit_of_entry hkv (Or.inr ?_)
    unfold entryHitSecond
    rw [Bool.and_eq_true, List.any_eq_true]
    refine ⟨⟨ma, hma2, ?_⟩, ?_⟩
    · rw [Bool.or_eq_true]
      exact Or.inr (beq_iff_eq.mpr hea')
    · rw [Bool.or_eq_true]
      refine Or.inl ?_
      rw [Bool.or_eq_true]
      exact Or.inl (heb' ▸ occursIn_self (normalizeL b.toList))
  · refine variationsHit_of_entry hkv (Or.inr ?_)
    unfold entryHitSecond
    rw [Bool.and_eq_true, List.any_eq_true]
    refine ⟨⟨ma, hma2, ?_⟩, ?_⟩
    · rw [Bool.or_eq_true]
      exact Or.inr (beq_iff_eq.mpr hea')
    · rw [Bool.or_eq_true]
      refine Or.inr ?_
      rw [List.any_eq_true]
      refine ⟨mb, hmb2, ?_⟩
      rw [Bool.or_eq_true]
      exact Or.inr (beq_iff_eq.mpr heb')

/-- C3: the matcher returns true for exact canonical equality, for canonical
substring containment in either direction with both canonical forms at least
4 characters long, and for co-membership in the curated alias table. -/
theorem matcher_sufficient (a b : String)
    (h : normalizeSkill a = normalizeSkill b
      ∨ (4 ≤ (normalizeSkill a).length ∧ 4 ≤ (normalizeSkill b).length ∧
          (jsIncludesS (normalizeSkill a) (normalizeSkill b) = true ∨
           jsIncludesS (normalizeSkill b) (normalizeSkill a) = true))
      ∨ aliasCoMember a b) :
    matchesSkill a b = true := by
  have hA : (normalizeSkill a).toList = normalizeL a.toList := List.toList_asString _
  have hB : (normalizeSkill b).toList = normalizeL b.toList := List.toList_asString _
  unfold matchesSkill
  simp only [Bool.or_eq_true, Bool.and_eq_true, beq_iff_eq, decide_eq_true_eq]
  rcases h with heq | ⟨h4a, h4b, hc | hc⟩ | halias
  · have hl := congrArg String.toList heq
    rw [hA, hB] at hl
    tauto
  · unfold jsIncludesS at hc
    rw [hA, hB] at hc
    tauto
  · unfold jsIncludesS at hc
    rw [hA, hB] at hc
    tauto
  · by_cases heq : normalizeL a.toList = normalizeL b.toList
    · tauto
    · have hv := variationsHit_of_coMember a b halias heq
      tauto

/-- C3 witness: "TypeScript" and "ts" are alias co-members, and the matcher
accepts the pair. -/
theorem matcher_sufficient_witness :
    aliasCoMember "TypeScript" "ts" ∧ matchesSkill "TypeScript" "ts" = true :=
  ⟨by decide, matcher_sufficient "TypeScript" "ts" (Or.inr (Or.inr (by decide)))⟩

end CareerProjector
